import Mathlib

/-!
# Verification of the staged-diff core of an AI commit-message generator

Shallow embedding of the git-facing module (`internal/git/client.go`), the
application pre-flight logic (`internal/app/app.go`) and the networked
message-generation client (`internal/ai`), together with proofs of the
specification's claims about them.

Strings are modelled as Lean `String` (sequences of characters); Go's
`strings.Split(s, "\n")` is modelled by an explicit recursive splitter on the
character list with the same semantics (split at every occurrence of the
separator, yielding `count + 1` segments).
-/

namespace AICommit

/-- go-git `StatusCode` (one byte of porcelain status): the full set of
values of the library type. -/
inductive StatusCode where
  | Unmodified
  | Untracked
  | Modified
  | Added
  | Deleted
  | Renamed
  | Copied
  | UpdatedButUnmerged
deriving DecidableEq, Repr

/-- go-git `FileStatus`: staging-area state, worktree state, and the `Extra`
field (e.g. previous name for renames; object id used in synthesized headers). -/
structure FileStatus where
  Staging : StatusCode
  Worktree : StatusCode
  Extra : String
deriving DecidableEq, Repr

/-- A status map, modelled as an association list from repository-relative
path to `FileStatus` (Go iterates the map in unspecified order; the list
fixes one such order). -/
abbrev Status := List (String × FileStatus)

/-- The staged-change predicate used by `HasStagedChanges` and by the skip
test in `GetStagedDiff`: `fileStatus.Staging != git.Unmodified &&
fileStatus.Staging != git.Untracked`. -/
def isStagedStatus (fs : FileStatus) : Bool :=
  fs.Staging != StatusCode.Unmodified && fs.Staging != StatusCode.Untracked

/-- Model of `ClientImpl.HasStagedChanges` (client.go lines 97-110): scans the status
map and returns true on the first entry whose staging code is neither
`Unmodified` nor `Untracked`. -/
def HasStagedChanges (status : Status) : Bool :=
  status.any (fun e => isStagedStatus e.2)

/-- Go `strings.Split(s, "\n")` on the character list: split at every
newline; always returns at least one (possibly empty) segment. -/
def splitNlChars : List Char → List (List Char)
  | [] => [[]]
  | c :: rest =>
    if c = '\n' then [] :: splitNlChars rest
    else
      match splitNlChars rest with
      | [] => [[c]]
      | seg :: segs => (c :: seg) :: segs

/-- Go `strings.Split(string(content), "\n")` on a Lean `String`. -/
def stringsSplitNl (s : String) : List String :=
  (splitNlChars s.data).map (fun l => ⟨l⟩)

/-- The `+`-prefixed body chunks emitted for an added (or new-side modified)
file: for each segment of the newline split, the code writes `"+"`, the
segment, and `"\n"`. -/
def plusLines (content : String) : List String :=
  (stringsSplitNl content).map (fun line => "+" ++ line ++ "\n")

/-- The `-`-prefixed body chunks emitted for a deleted (or old-side modified)
file. -/
def minusLines (content : String) : List String :=
  (stringsSplitNl content).map (fun line => "-" ++ line ++ "\n")

/-- Association-list lookup modelling `FindEntry` on a tree snapshot and
`os.ReadFile` on the working directory: `none` is "absent or failed to read". -/
def lookupFile (files : List (String × String)) (p : String) : Option String :=
  (files.find? (fun e => e.1 == p)).map (fun e => e.2)

/-- A tree snapshot: paths mapped to blob contents. -/
abbrev Tree := List (String × String)

/-- Result of `headCommit.Tree()` for the resolved HEAD commit: either an
error (which aborts `GetStagedDiff`) or the tree snapshot. -/
structure CommitObj where
  tree : Except String Tree

/-- Outcome of `repo.Head()` followed by `repo.CommitObject(head.Hash())`:
`notFound` models `plumbing.ErrReferenceNotFound` (brand-new repository),
`otherErr` any other error from `repo.Head()`, and `found none` a HEAD whose
commit object could not be loaded (silently ignored by the code). -/
inductive HeadState where
  | notFound
  | otherErr (msg : String)
  | found (commit : Option CommitObj)

/-- The repository environment `GetStagedDiff` reads from: the HEAD state and
the working-directory files. -/
structure RepoEnv where
  head : HeadState
  workFiles : List (String × String)

/-- client.go lines 140-154: resolve the optional HEAD tree. A missing HEAD
reference or a failed commit lookup yields no tree (old content treated as
absent); any other `Head()` error, or a failing `Tree()`, aborts. -/
def getHeadTree (env : RepoEnv) : Except String (Option Tree) :=
  match env.head with
  | HeadState.otherErr msg => Except.error ("failed to get HEAD: " ++ msg)
  | HeadState.notFound => Except.ok none
  | HeadState.found none => Except.ok none
  | HeadState.found (some c) =>
    match c.tree with
    | Except.error msg => Except.error ("failed to get HEAD tree: " ++ msg)
    | Except.ok t => Except.ok (some t)

/-- The body of the `git.Modified` case (client.go lines 222-277), as a
function of the path, the `Extra` field and the two resolved contents: the
synthetic header (the `index` line uses `Extra` on both sides) followed by
every old line prefixed `-` and every new line prefixed `+`. -/
def modifiedFragment (filePath extra oldContent newContent : String) : String :=
  "diff --git a/" ++ filePath ++ " b/" ++ filePath ++
    "\nindex " ++ extra ++ ".." ++ extra ++
    " 100644\n--- a/" ++ filePath ++ "\n+++ b/" ++ filePath ++ "\n" ++
  String.join (minusLines oldContent) ++ String.join (plusLines newContent)

/-- client.go lines 157-291: the diff fragment written for one status entry.
`Unmodified`/`Untracked` entries are skipped; `Copied` matches no case of the
switch and emits nothing. Content-read failures are swallowed: a failed read
for an added/deleted file drops the body, a failed read for a modified file
degrades to empty content (whose split is the single empty segment). -/
def fragmentFor (headTree : Option Tree) (workFiles : List (String × String))
    (entry : String × FileStatus) : String :=
  let filePath := entry.1
  let fileStatus := entry.2
  if fileStatus.Staging == StatusCode.Unmodified ||
      fileStatus.Staging == StatusCode.Untracked then ""
  else
    match fileStatus.Staging with
    | StatusCode.Added =>
      "diff --git a/" ++ filePath ++ " b/" ++ filePath ++
        "\nnew file mode 100644\nindex 0000000.." ++ fileStatus.Extra ++
        "\n--- /dev/null\n+++ b/" ++ filePath ++ "\n" ++
      (match lookupFile workFiles filePath with
       | some content => String.join (plusLines content)
       | none => "")
    | StatusCode.Deleted =>
      "diff --git a/" ++ filePath ++ " b/" ++ filePath ++
        "\ndeleted file mode 100644\nindex " ++ fileStatus.Extra ++
        "..0000000\n--- a/" ++ filePath ++ "\n+++ /dev/null\n" ++
      (match headTree with
       | some tree =>
         match lookupFile tree filePath with
         | some content => String.join (minusLines content)
         | none => ""
       | none => "")
    | StatusCode.Modified =>
      let oldContent : String :=
        match headTree with
        | some tree => (lookupFile tree filePath).getD ""
        | none => ""
      let newContent : String := (lookupFile workFiles filePath).getD ""
      modifiedFragment filePath fileStatus.Extra oldContent newContent
    | StatusCode.Renamed =>
      "diff --git a/" ++ fileStatus.Extra ++ " b/" ++ filePath ++
        "\nrename from " ++ fileStatus.Extra ++ "\nrename to " ++ filePath ++ "\n"
    | _ => ""

/-- The concatenation of all fragments in status iteration order (the
`strings.Builder` contents before the size cap). -/
def synthesizeRaw (headTree : Option Tree) (workFiles : List (String × String))
    (status : Status) : String :=
  String.join (status.map (fragmentFor headTree workFiles))

/-- client.go lines 293-297: the 10,000-character cap with the literal
truncation marker. -/
def truncateDiff (diff : String) : String :=
  if diff.length > 10000 then diff.take 10000 ++ "\n...[TRUNCATED]" else diff

/-- Model of `ClientImpl.GetStagedDiff` (client.go lines 114-298), given the status map
already computed by `worktree.Status()`: resolve the optional HEAD tree, emit
one fragment per staged entry, cap the result. -/
def GetStagedDiff (env : RepoEnv) (status : Status) : Except String String :=
  match getHeadTree env with
  | Except.error e => Except.error e
  | Except.ok headTree =>
    Except.ok (truncateDiff (synthesizeRaw headTree env.workFiles status))

/-- go-git repository configuration `config.User`: name and email. -/
structure User where
  Name : String
  Email : String
deriving DecidableEq, Repr

/-- The slice of `repo.Config()` that `CommitWithMessage` reads. -/
structure RepoConfig where
  User : User
deriving DecidableEq, Repr

/-- Model of `object.Signature`: author identity plus timestamp (`time.Now()` modelled
as a natural number of time units). -/
structure Signature where
  Name : String
  Email : String
  When : Nat
deriving DecidableEq, Repr

/-- A commit object as far as `worktree.Commit` records it here: message and
author signature. -/
structure Commit where
  Message : String
  Author : Signature
deriving DecidableEq, Repr

/-- The state `CommitWithMessage` reads and extends: repository configuration,
the current wall-clock time, and the list of existing commit objects. -/
structure CommitEnv where
  config : RepoConfig
  now : Nat
  commits : List Commit

/-- Model of `ClientImpl.CommitWithMessage` (client.go lines 302-344): reject an empty
configured user name or email with an actionable error (creating no commit);
otherwise append a commit stamped with the configured identity and the
current time. -/
def CommitWithMessage (message : String) (env : CommitEnv) :
    Except String (List Commit) :=
  if env.config.User.Name == "" then
    Except.error
      "git user name is not configured. Please set it with: git config user.name \"Your Name\""
  else if env.config.User.Email == "" then
    Except.error
      "git user email is not configured. Please set it with: git config user.email \"your.email@example.com\""
  else
    Except.ok (env.commits ++
      [{ Message := message,
         Author := { Name := env.config.User.Name,
                     Email := env.config.User.Email,
                     When := env.now } }])

/-- Outcome of one HTTP attempt in `GenerateCommitMessage`: a transport
failure from `client.Do`, or a response with a status code, a body, and (when
the body is consumed as JSON) the decoded `response` field. -/
inductive HttpOutcome where
  | failure (msg : String)
  | response (statusCode : Nat) (body : String) (decoded : Except String String)

/-- The constant `maxRetries := 3` in `GenerateCommitMessage`. -/
def maxRetries : Nat := 3

/-- The constant `baseDelay := 2` time units in `GenerateCommitMessage`. -/
def baseDelay : Nat := 2

/-- The retry loop of `OllamaClient.GenerateCommitMessage`, one recursive step
per `for` iteration (`attempt` ranges over `0..maxRetries`; the fuel mirrors
the loop bound, and the fuel-exhausted case is the function's trailing
`return "", fmt.Errorf("unreachable")`). Besides the outcome it returns the
list of sleep delays performed, in order. -/
def generateLoop (resp : Nat → HttpOutcome) :
    Nat → Nat → List Nat → Except String String × List Nat
  | 0, _, delays => (Except.error "unreachable", delays)
  | fuel + 1, attempt, delays =>
    let delays :=
      if attempt > 0 then delays ++ [baseDelay * 2 ^ (attempt - 1)] else delays
    match resp attempt with
    | HttpOutcome.failure msg =>
      (Except.error ("API call failed: " ++ msg), delays)
    | HttpOutcome.response statusCode body decoded =>
      if statusCode == 429 then
        if attempt == maxRetries then
          (Except.error
            ("API rate limit exceeded after " ++ toString maxRetries ++
              " retries: " ++ body), delays)
        else generateLoop resp fuel (attempt + 1) delays
      else if statusCode != 200 then
        (Except.error
          ("API returned error: status " ++ toString statusCode ++
            " (body: " ++ body ++ ")"), delays)
      else
        match decoded with
        | Except.error msg =>
          (Except.error ("failed to decode response: " ++ msg), delays)
        | Except.ok r =>
          if r == "" then (Except.error "empty response from model", delays)
          else (Except.ok r.trim, delays)

/-- Model of `OllamaClient.GenerateCommitMessage`, abstracted over the per-attempt HTTP
outcome: run the retry loop from attempt 0 with no delays performed yet. -/
def GenerateCommitMessage (resp : Nat → HttpOutcome) :
    Except String String × List Nat :=
  generateLoop resp (maxRetries + 1) 0 []

/-- An opened repository handle, identified abstractly. -/
structure RepoHandle where
  id : Nat
deriving DecidableEq, Repr

/-- The handle cache inside `ClientImpl`: the cached repository (if any) and
the working directory it was opened from. -/
structure ClientState where
  repo : Option RepoHandle
  repoPath : String
deriving DecidableEq, Repr

/-- Model of `ClientImpl.openRepo` (client.go lines 38-64), abstracted over
`git.PlainOpenWithOptions` (`plainOpen`) and the current working directory
`wd`: reuse the cached handle when one exists for the same directory,
otherwise open anew and replace the cache. The boolean records whether a new
open was performed. -/
def openRepo (plainOpen : String → Except String RepoHandle) (wd : String)
    (c : ClientState) : Except String (RepoHandle × ClientState × Bool) :=
  match c.repo with
  | some r =>
    if c.repoPath == wd then Except.ok (r, c, false)
    else
      match plainOpen wd with
      | Except.error e => Except.error e
      | Except.ok repo => Except.ok (repo, ⟨some repo, wd⟩, true)
  | none =>
    match plainOpen wd with
    | Except.error e => Except.error e
    | Except.ok repo => Except.ok (repo, ⟨some repo, wd⟩, true)

/-- The staged set named by the specification: `{Added, Modified, Deleted,
Renamed, Copied}` (the claim's candidate characterisation of when
`HasStagedChanges` returns true). -/
def specStagedSet (s : StatusCode) : Bool :=
  s == StatusCode.Added || s == StatusCode.Modified || s == StatusCode.Deleted ||
    s == StatusCode.Renamed || s == StatusCode.Copied

/-- A 10,100-character file content with no newline, used to drive the diff
past the 10,000-character cap. -/
def bigContent : String := ⟨List.replicate 10100 'a'⟩

/-! ## Helper lemmas about the line splitter -/

theorem splitNlChars_ne_nil (l : List Char) : splitNlChars l ≠ [] := by
  induction l with
  | nil => simp [splitNlChars]
  | cons c rest ih =>
    by_cases hc : c = '\n'
    · simp [splitNlChars, hc]
    · simp only [splitNlChars, if_neg hc]
      cases h : splitNlChars rest with
      | nil => simp
      | cons seg segs => simp

theorem splitNlChars_length (l : List Char) :
    (splitNlChars l).length = l.count '\n' + 1 := by
  induction l with
  | nil => simp [splitNlChars]
  | cons c rest ih =>
    by_cases hc : c = '\n'
    · subst hc
      simp [splitNlChars, ih, List.count_cons]
    · simp only [splitNlChars, if_neg hc]
      cases h : splitNlChars rest with
      | nil => exact absurd h (splitNlChars_ne_nil rest)
      | cons seg segs =>
        rw [h] at ih
        rw [List.count_cons]
        simp only [List.length_cons] at ih ⊢
        simp [hc]
        omega

theorem splitNlChars_no_newline (l : List Char) (h : '\n' ∉ l) :
    splitNlChars l = [l] := by
  induction l with
  | nil => rfl
  | cons c rest ih =>
    rw [List.mem_cons, not_or] at h
    obtain ⟨h1, h2⟩ := h
    have hc : ¬ c = '\n' := fun e => h1 e.symm
    simp only [splitNlChars, if_neg hc, ih h2]

theorem splitNlChars_trailing (l : List Char) :
    (splitNlChars (l ++ ['\n'])).getLast? = some [] := by
  induction l with
  | nil => rfl
  | cons c rest ih =>
    by_cases hc : c = '\n'
    · subst hc
      simp only [List.cons_append, splitNlChars, if_true]
      cases hS : splitNlChars (rest ++ ['\n']) with
      | nil => exact absurd hS (splitNlChars_ne_nil _)
      | cons s ss =>
        rw [List.getLast?_cons_cons]
        rw [hS] at ih
        exact ih
    · simp only [List.cons_append, splitNlChars, if_neg hc]
      cases hS : splitNlChars (rest ++ ['\n']) with
      | nil => exact absurd hS (splitNlChars_ne_nil _)
      | cons s ss =>
        cases ss with
        | nil =>
          have hlen := splitNlChars_length (rest ++ ['\n'])
          rw [hS] at hlen
          simp [List.count_append] at hlen
        | cons s2 ss2 =>
          rw [hS] at ih
          rw [List.getLast?_cons_cons] at ih
          simpa using ih

theorem stringsSplitNl_length (s : String) :
    (stringsSplitNl s).length = s.data.count '\n' + 1 := by
  simp [stringsSplitNl, splitNlChars_length]

theorem string_join_singleton (x : String) : String.join [x] = x := rfl

theorem hasStagedChanges_mem_iff (status : Status) :
    HasStagedChanges status = true ↔
      ∃ e, e ∈ status ∧
        e.2.Staging ∈ [StatusCode.Added, StatusCode.Modified, StatusCode.Deleted,
          StatusCode.Renamed, StatusCode.Copied, StatusCode.UpdatedButUnmerged] := by
  have hcode : ∀ s : StatusCode,
      (s != StatusCode.Unmodified && s != StatusCode.Untracked) = true ↔
        s ∈ [StatusCode.Added, StatusCode.Modified, StatusCode.Deleted,
          StatusCode.Renamed, StatusCode.Copied, StatusCode.UpdatedButUnmerged] := by
    intro s; cases s <;> decide
  unfold HasStagedChanges isStagedStatus
  rw [List.any_eq_true]
  constructor
  · rintro ⟨e, he, hp⟩
    exact ⟨e, he, (hcode e.2.Staging).mp hp⟩
  · rintro ⟨e, he, hp⟩
    exact ⟨e, he, (hcode e.2.Staging).mpr hp⟩

theorem bigContent_no_newline : '\n' ∉ bigContent.data := by
  intro hmem
  rw [bigContent] at hmem
  rw [List.mem_replicate] at hmem
  exact absurd hmem.2 (by decide)

theorem bigContent_length : bigContent.length = 10100 := by
  show (List.replicate 10100 'a').length = 10100
  rw [List.length_replicate]

theorem stringsSplitNl_bigContent : stringsSplitNl bigContent = [bigContent] := by
  unfold stringsSplitNl
  rw [splitNlChars_no_newline _ bigContent_no_newline]
  rfl

/-! ## Claim theorems -/

/-- C2 counterexample: the status map whose only entry is staged as
`UpdatedButUnmerged` makes `HasStagedChanges` return true even though that
staging state is not one of the five states {Added, Modified, Deleted,
Renamed, Copied} named by the claim, refuting its "only if" direction. -/
theorem hasStagedChanges_spec_counterexample :
    HasStagedChanges
        [("conflicted.txt",
          { Staging := StatusCode.UpdatedButUnmerged,
            Worktree := StatusCode.Unmodified, Extra := "" })] = true ∧
    specStagedSet StatusCode.UpdatedButUnmerged = false := by decide

/-- C2 (amended): `HasStagedChanges` returns true iff some path's staging
state is neither `Unmodified` nor `Untracked`, i.e. is one of {Added,
Modified, Deleted, Renamed, Copied, UpdatedButUnmerged}; in particular a
status map all of whose entries are staged `Unmodified` or `Untracked` never
makes it return true. -/
theorem hasStagedChanges_amended (status : Status) :
    (HasStagedChanges status = true ↔
      ∃ e, e ∈ status ∧
        e.2.Staging ∈ [StatusCode.Added, StatusCode.Modified, StatusCode.Deleted,
          StatusCode.Renamed, StatusCode.Copied, StatusCode.UpdatedButUnmerged]) ∧
    ((∀ e ∈ status, e.2.Staging = StatusCode.Unmodified ∨
        e.2.Staging = StatusCode.Untracked) →
      HasStagedChanges status = false) := by
  refine ⟨hasStagedChanges_mem_iff status, ?_⟩
  intro h
  rw [← Bool.not_eq_true]
  intro htrue
  obtain ⟨e, he, hmem⟩ := (hasStagedChanges_mem_iff status).mp htrue
  rcases h e he with h1 | h1 <;> rw [h1] at hmem <;> exact absurd hmem (by decide)

/-- Witness for C2 (amended): one staged `Added` entry yields true, a map of
`Unmodified`/`Untracked` entries yields false. -/
theorem hasStagedChanges_amended_witness :
    HasStagedChanges
        [("a.txt", ⟨StatusCode.Added, StatusCode.Unmodified, ""⟩)] = true ∧
    HasStagedChanges
        [("b.txt", ⟨StatusCode.Unmodified, StatusCode.Modified, ""⟩),
         ("c.txt", ⟨StatusCode.Untracked, StatusCode.Untracked, ""⟩)] = false :=
  ⟨(hasStagedChanges_amended _).1.mpr
      ⟨("a.txt", ⟨StatusCode.Added, StatusCode.Unmodified, ""⟩), by decide, by decide⟩,
   (hasStagedChanges_amended _).2 (by decide)⟩

/-- C1: whenever the HEAD tree resolves, the returned diff is the raw
fragment concatenation when its length is at most 10,000 characters, and is
exactly its first 10,000 characters followed by the literal marker
`"\n...[TRUNCATED]"` when it is longer. -/
theorem getStagedDiff_truncation (env : RepoEnv) (status : Status)
    (headTree : Option Tree) (h : getHeadTree env = Except.ok headTree) :
    ((synthesizeRaw headTree env.workFiles status).length > 10000 →
      GetStagedDiff env status = Except.ok
        ((synthesizeRaw headTree env.workFiles status).take 10000 ++
          "\n...[TRUNCATED]")) ∧
    ((synthesizeRaw headTree env.workFiles status).length ≤ 10000 →
      GetStagedDiff env status =
        Except.ok (synthesizeRaw headTree env.workFiles status)) := by
  constructor
  · intro hl
    simp only [GetStagedDiff, h, truncateDiff]
    rw [if_pos hl]
  · intro hl
    simp only [GetStagedDiff, h, truncateDiff]
    rw [if_neg (by omega)]

theorem synthesizeRaw_singleton (headTree : Option Tree)
    (workFiles : List (String × String)) (e : String × FileStatus) :
    synthesizeRaw headTree workFiles [e] = fragmentFor headTree workFiles e := by
  simp only [synthesizeRaw, List.map_cons, List.map_nil, string_join_singleton]

theorem added_fragment_eq (headTree : Option Tree)
    (workFiles : List (String × String)) (p C extra : String) (wt : StatusCode)
    (h : lookupFile workFiles p = some C) :
    fragmentFor headTree workFiles (p, ⟨StatusCode.Added, wt, extra⟩) =
      "diff --git a/" ++ p ++ " b/" ++ p ++
        "\nnew file mode 100644\nindex 0000000.." ++ extra ++
        "\n--- /dev/null\n+++ b/" ++ p ++ "\n" ++
      String.join (plusLines C) := by
  simp [fragmentFor, h]

theorem plusLines_bigContent : plusLines bigContent = ["+" ++ bigContent ++ "\n"] := by
  unfold plusLines
  rw [stringsSplitNl_bigContent]
  simp only [List.map_cons, List.map_nil]

theorem bigDiff_long :
    10000 < (synthesizeRaw none [("big.txt", bigContent)]
      [("big.txt", ⟨StatusCode.Added, StatusCode.Unmodified, "e69de29"⟩)]).length := by
  rw [synthesizeRaw_singleton,
    added_fragment_eq none [("big.txt", bigContent)] "big.txt" bigContent "e69de29"
      StatusCode.Unmodified rfl,
    plusLines_bigContent, string_join_singleton]
  simp only [String.length_append, bigContent_length]
  decide

/-- Witness for C1: a single staged added file of 10,100 characters pushes
the synthesized diff over the cap, and the result is the 10,000-character
cut followed by the literal marker. -/
theorem getStagedDiff_truncation_witness :
    GetStagedDiff ⟨HeadState.notFound, [("big.txt", bigContent)]⟩
        [("big.txt", ⟨StatusCode.Added, StatusCode.Unmodified, "e69de29"⟩)] =
      Except.ok ((synthesizeRaw none [("big.txt", bigContent)]
          [("big.txt", ⟨StatusCode.Added, StatusCode.Unmodified, "e69de29"⟩)]).take 10000 ++
        "\n...[TRUNCATED]") :=
  (getStagedDiff_truncation ⟨HeadState.notFound, [("big.txt", bigContent)]⟩
    [("big.txt", ⟨StatusCode.Added, StatusCode.Unmodified, "e69de29"⟩)] none rfl).1
    bigDiff_long

/-- C3: `CommitWithMessage` rejects an empty configured user name (naming the
`git config user.name` fix), then an empty email (naming the
`git config user.email` fix), creating no commit in either case; with both
configured it appends exactly one commit carrying the configured identity and
the current time. -/
theorem commitWithMessage_identity (message : String) (env : CommitEnv) :
    (env.config.User.Name = "" →
      CommitWithMessage message env = Except.error
        "git user name is not configured. Please set it with: git config user.name \"Your Name\"") ∧
    (env.config.User.Name ≠ "" → env.config.User.Email = "" →
      CommitWithMessage message env = Except.error
        "git user email is not configured. Please set it with: git config user.email \"your.email@example.com\"") ∧
    (env.config.User.Name ≠ "" → env.config.User.Email ≠ "" →
      CommitWithMessage message env = Except.ok (env.commits ++
        [⟨message, ⟨env.config.User.Name, env.config.User.Email, env.now⟩⟩])) := by
  refine ⟨?_, ?_, ?_⟩
  · intro h
    simp [CommitWithMessage, h]
  · intro h1 h2
    simp [CommitWithMessage, h1, h2]
  · intro h1 h2
    simp [CommitWithMessage, h1, h2]

/-- Witness for C3: missing name rejected, missing email rejected, full
identity committed with the configured signature and timestamp. -/
theorem commitWithMessage_identity_witness :
    CommitWithMessage "feat: add parser core"
        ⟨⟨⟨"", "ada@example.com"⟩⟩, 5, []⟩ = Except.error
      "git user name is not configured. Please set it with: git config user.name \"Your Name\"" ∧
    CommitWithMessage "feat: add parser core"
        ⟨⟨⟨"Ada", ""⟩⟩, 5, []⟩ = Except.error
      "git user email is not configured. Please set it with: git config user.email \"your.email@example.com\"" ∧
    CommitWithMessage "feat: add parser core"
        ⟨⟨⟨"Ada", "ada@example.com"⟩⟩, 5, []⟩ =
      Except.ok [⟨"feat: add parser core", ⟨"Ada", "ada@example.com", 5⟩⟩] :=
  ⟨(commitWithMessage_identity _ _).1 rfl,
   (commitWithMessage_identity _ _).2.1 (by decide) rfl,
   (commitWithMessage_identity _ _).2.2 (by decide) (by decide)⟩

/-- C4: for a `Modified` path whose old content resolves from the HEAD tree
to `O` and whose new content reads from the working directory as `N`, the
emitted fragment is the synthetic header followed by all lines of `O`
prefixed `-` and then all lines of `N` prefixed `+` (full replacement); and
synthesizing twice from the same unchanged inputs yields byte-identical
output. -/
theorem modified_fragment_full_replacement (tree : Tree)
    (workFiles : List (String × String)) (p extra : String) (wt : StatusCode)
    (O N : String) (hOld : lookupFile tree p = some O)
    (hNew : lookupFile workFiles p = some N) :
    fragmentFor (some tree) workFiles (p, ⟨StatusCode.Modified, wt, extra⟩) =
      "diff --git a/" ++ p ++ " b/" ++ p ++
        "\nindex " ++ extra ++ ".." ++ extra ++
        " 100644\n--- a/" ++ p ++ "\n+++ b/" ++ p ++ "\n" ++
      String.join (minusLines O) ++ String.join (plusLines N) ∧
    (∀ s₁ s₂ : String,
      fragmentFor (some tree) workFiles (p, ⟨StatusCode.Modified, wt, extra⟩) = s₁ →
      fragmentFor (some tree) workFiles (p, ⟨StatusCode.Modified, wt, extra⟩) = s₂ →
      s₁ = s₂) := by
  constructor
  · simp [fragmentFor, modifiedFragment, hOld, hNew]
  · intro s₁ s₂ h1 h2
    rw [← h1, ← h2]

/-- Witness for C4: one-line modified file, old content `"old\n"`, new
content `"new\n"`. -/
theorem modified_fragment_full_replacement_witness :
    fragmentFor (some [("f.txt", "old\n")]) [("f.txt", "new\n")]
        ("f.txt", ⟨StatusCode.Modified, StatusCode.Unmodified, "ab12cd3"⟩) =
      "diff --git a/f.txt b/f.txt\nindex ab12cd3..ab12cd3 100644\n--- a/f.txt\n+++ b/f.txt\n-old\n-\n+new\n+\n" := by
  have h := (modified_fragment_full_replacement [("f.txt", "old\n")]
    [("f.txt", "new\n")] "f.txt" "ab12cd3" StatusCode.Unmodified
    "old\n" "new\n" rfl rfl).1
  rw [h]
  decide

/-- C10: the `index` line emitted for a `Modified` path carries the status
`Extra` field as both the old-side and the new-side object id, so the pair
never shows two distinct blob hashes. -/
theorem modified_index_line_same_oid (p extra oldContent newContent : String) :
    ∃ oid pre post,
      modifiedFragment p extra oldContent newContent =
        pre ++ ("index " ++ oid ++ ".." ++ oid ++ " 100644\n") ++ post ∧
      oid = extra := by
  refine ⟨extra, "diff --git a/" ++ p ++ " b/" ++ p ++ "\n",
    "--- a/" ++ p ++ "\n+++ b/" ++ p ++ "\n" ++
      String.join (minusLines oldContent) ++ String.join (plusLines newContent),
    ?_, rfl⟩
  have h1 : ("\nindex " : String) = "\n" ++ "index " := rfl
  have h2 : (" 100644\n--- a/" : String) = " 100644\n" ++ "--- a/" := rfl
  unfold modifiedFragment
  rw [h1, h2]
  simp only [String.append_assoc]

/-- C5: for the repository whose only staged change is the newly added
`hello.txt` containing `"hello\n"`, the synthesized diff begins with
`diff --git a/hello.txt b/hello.txt`, contains the line `--- /dev/null`, and
contains exactly one line `+hello`; in general the fragment for an added file
with content `C` is the `/dev/null` header followed by every line of `C`
prefixed `+`, in original order. -/
theorem added_file_diff :
    (∃ s, GetStagedDiff ⟨HeadState.notFound, [("hello.txt", "hello\n")]⟩
        [("hello.txt", ⟨StatusCode.Added, StatusCode.Unmodified, "ce01362"⟩)] =
          Except.ok s ∧
      (∃ t, s = "diff --git a/hello.txt b/hello.txt" ++ t) ∧
      "--- /dev/null" ∈ stringsSplitNl s ∧
      ((stringsSplitNl s).filter (fun l => l == "+hello")).length = 1) ∧
    (∀ (headTree : Option Tree) (workFiles : List (String × String))
        (p C extra : String) (wt : StatusCode),
      lookupFile workFiles p = some C →
      fragmentFor headTree workFiles (p, ⟨StatusCode.Added, wt, extra⟩) =
        "diff --git a/" ++ p ++ " b/" ++ p ++
          "\nnew file mode 100644\nindex 0000000.." ++ extra ++
          "\n--- /dev/null\n+++ b/" ++ p ++ "\n" ++
        String.join ((stringsSplitNl C).map (fun line => "+" ++ line ++ "\n"))) := by
  constructor
  · refine ⟨_, rfl,
      ⟨"\nnew file mode 100644\nindex 0000000..ce01362\n--- /dev/null\n+++ b/hello.txt\n+hello\n+\n",
        by decide⟩, by decide, by decide⟩
  · intro ht wf p C extra wt h
    exact added_fragment_eq ht wf p C extra wt h

/-- Witness for C5: the hello.txt fragment evaluated in full. -/
theorem added_file_diff_witness :
    fragmentFor none [("hello.txt", "hello\n")]
        ("hello.txt", ⟨StatusCode.Added, StatusCode.Unmodified, "ce01362"⟩) =
      "diff --git a/hello.txt b/hello.txt\nnew file mode 100644\nindex 0000000..ce01362\n--- /dev/null\n+++ b/hello.txt\n+hello\n+\n" := by
  have h := added_file_diff.2 none [("hello.txt", "hello\n")] "hello.txt"
    "hello\n" "ce01362" StatusCode.Unmodified rfl
  rw [h]
  decide

/-- C6: a repository with no HEAD reference never makes `GetStagedDiff`
error for that reason — the diff is synthesized with no old-content source;
more generally, whenever the HEAD tree resolves (present or absent), the
function returns `ok`, so no individual content-read failure can abort it;
and per-path read failures degrade the fragments rather than erroring: a
`Modified` path whose blob and working-tree reads both fail degrades to the
empty-content full-replacement fragment, and `Added`/`Deleted` paths whose
reads fail emit their headers with no body. -/
theorem getStagedDiff_no_head_graceful (env : RepoEnv) (status : Status) :
    (env.head = HeadState.notFound →
      GetStagedDiff env status =
        Except.ok (truncateDiff (synthesizeRaw none env.workFiles status))) ∧
    (∀ headTree, getHeadTree env = Except.ok headTree →
      GetStagedDiff env status =
        Except.ok (truncateDiff (synthesizeRaw headTree env.workFiles status))) ∧
    (∀ (tree : Tree) (p extra : String) (wt : StatusCode),
      lookupFile tree p = none → lookupFile env.workFiles p = none →
      fragmentFor (some tree) env.workFiles (p, ⟨StatusCode.Modified, wt, extra⟩) =
        modifiedFragment p extra "" "") ∧
    (∀ (headTree : Option Tree) (p extra : String) (wt : StatusCode),
      lookupFile env.workFiles p = none →
      fragmentFor headTree env.workFiles (p, ⟨StatusCode.Added, wt, extra⟩) =
        "diff --git a/" ++ p ++ " b/" ++ p ++
          "\nnew file mode 100644\nindex 0000000.." ++ extra ++
          "\n--- /dev/null\n+++ b/" ++ p ++ "\n") ∧
    (∀ (tree : Tree) (p extra : String) (wt : StatusCode),
      lookupFile tree p = none →
      fragmentFor (some tree) env.workFiles (p, ⟨StatusCode.Deleted, wt, extra⟩) =
        "diff --git a/" ++ p ++ " b/" ++ p ++
          "\ndeleted file mode 100644\nindex " ++ extra ++
          "..0000000\n--- a/" ++ p ++ "\n+++ /dev/null\n") := by
  refine ⟨?_, ?_, ?_, ?_, ?_⟩
  · intro h
    simp only [GetStagedDiff, getHeadTree, h]
  · intro headTree h
    simp only [GetStagedDiff, h]
  · intro tree p extra wt h1 h2
    simp [fragmentFor, h1, h2]
  · intro headTree p extra wt h
    simp [fragmentFor, h]
  · intro tree p extra wt h
    simp [fragmentFor, h]

/-- Witness for C6: an empty repository (no HEAD, no readable files) with one
entry of each kind still produces an `ok` diff, and the degraded fragments
evaluate as stated. -/
theorem getStagedDiff_no_head_graceful_witness :
    GetStagedDiff ⟨HeadState.notFound, []⟩
        [("m.txt", ⟨StatusCode.Modified, StatusCode.Unmodified, "ab12cd3"⟩)] =
      Except.ok (truncateDiff (synthesizeRaw none []
        [("m.txt", ⟨StatusCode.Modified, StatusCode.Unmodified, "ab12cd3"⟩)])) ∧
    fragmentFor (some []) []
        ("m.txt", ⟨StatusCode.Modified, StatusCode.Unmodified, "ab12cd3"⟩) =
      modifiedFragment "m.txt" "ab12cd3" "" "" ∧
    fragmentFor none []
        ("a.txt", ⟨StatusCode.Added, StatusCode.Unmodified, "e69de29"⟩) =
      "diff --git a/" ++ "a.txt" ++ " b/" ++ "a.txt" ++
        "\nnew file mode 100644\nindex 0000000.." ++ "e69de29" ++
        "\n--- /dev/null\n+++ b/" ++ "a.txt" ++ "\n" :=
  ⟨(getStagedDiff_no_head_graceful ⟨HeadState.notFound, []⟩
      [("m.txt", ⟨StatusCode.Modified, StatusCode.Unmodified, "ab12cd3"⟩)]).1 rfl,
   ((getStagedDiff_no_head_graceful ⟨HeadState.notFound, []⟩
      [("m.txt", ⟨StatusCode.Modified, StatusCode.Unmodified, "ab12cd3"⟩)]).2.2).1
      [] "m.txt" "ab12cd3" StatusCode.Unmodified rfl rfl,
   ((getStagedDiff_no_head_graceful ⟨HeadState.notFound, []⟩
      [("m.txt", ⟨StatusCode.Modified, StatusCode.Unmodified, "ab12cd3"⟩)]).2.2).2.1
      none "a.txt" "e69de29" StatusCode.Unmodified rfl⟩

/-- C7: a rate-limited (429) generation request is retried up to 3 times
with exponential backoff delays 2, 4, 8 time units (base 2, doubling), and
surfaces a terminal rate-limit error after the final attempt; any other
non-success status on the first attempt fails immediately with the status in
the error and no retry delay performed. -/
theorem generate_retry_policy (resp : Nat → HttpOutcome)
    (b0 b1 b2 b3 : String) (d0 d1 d2 d3 : Except String String) :
    (resp 0 = HttpOutcome.response 429 b0 d0 →
     resp 1 = HttpOutcome.response 429 b1 d1 →
     resp 2 = HttpOutcome.response 429 b2 d2 →
     resp 3 = HttpOutcome.response 429 b3 d3 →
      GenerateCommitMessage resp =
        (Except.error ("API rate limit exceeded after " ++ toString maxRetries ++
          " retries: " ++ b3), [2, 4, 8])) ∧
    (∀ (c : Nat) (body : String) (dec : Except String String),
      resp 0 = HttpOutcome.response c body dec → c ≠ 429 → c ≠ 200 →
      GenerateCommitMessage resp =
        (Except.error ("API returned error: status " ++ toString c ++
          " (body: " ++ body ++ ")"), [])) := by
  constructor
  · intro h0 h1 h2 h3
    simp [GenerateCommitMessage, generateLoop, maxRetries, baseDelay, h0, h1, h2, h3]
  · intro c body dec h0 h429 h200
    simp [GenerateCommitMessage, generateLoop, h0, h429, h200]

/-- Witness for C7: all-429 responses exhaust the three backoff retries; a
first-attempt 500 fails immediately with no delay. -/
theorem generate_retry_policy_witness :
    GenerateCommitMessage (fun _ => HttpOutcome.response 429 "busy" (Except.ok "m")) =
      (Except.error ("API rate limit exceeded after " ++ toString maxRetries ++
        " retries: " ++ "busy"), [2, 4, 8]) ∧
    GenerateCommitMessage (fun _ => HttpOutcome.response 500 "boom" (Except.ok "m")) =
      (Except.error ("API returned error: status " ++ toString 500 ++
        " (body: " ++ "boom" ++ ")"), []) :=
  ⟨(generate_retry_policy (fun _ => HttpOutcome.response 429 "busy" (Except.ok "m"))
      "busy" "busy" "busy" "busy" (Except.ok "m") (Except.ok "m") (Except.ok "m")
      (Except.ok "m")).1 rfl rfl rfl rfl,
   (generate_retry_policy (fun _ => HttpOutcome.response 500 "boom" (Except.ok "m"))
      "b" "b" "b" "b" (Except.ok "m") (Except.ok "m") (Except.ok "m")
      (Except.ok "m")).2 500 "boom" (Except.ok "m") rfl (by decide) (by decide)⟩

/-- C8: `openRepo` opens a new handle exactly when no handle is cached or
the cached working directory differs from the current one; when the cached
directory matches, the same cached handle and unchanged state are returned;
after a fresh open the cache holds the new handle for the current directory.
No operation in the cache ever closes a handle — a replaced handle is merely
dropped. -/
theorem openRepo_cache_law (plainOpen : String → Except String RepoHandle)
    (wd : String) (c : ClientState) (r : RepoHandle) (c' : ClientState)
    (opened : Bool)
    (h : openRepo plainOpen wd c = Except.ok (r, c', opened)) :
    (opened = false ↔ (∃ r₀, c.repo = some r₀) ∧ c.repoPath = wd) ∧
    (∀ r₀, c.repo = some r₀ → c.repoPath = wd → r = r₀ ∧ c' = c) ∧
    (opened = true → plainOpen wd = Except.ok r ∧ c' = ⟨some r, wd⟩) := by
  rcases c with ⟨repo?, path⟩
  cases repo? with
  | some r0 =>
    by_cases hp : path = wd
    · subst hp
      have heq : openRepo plainOpen path ⟨some r0, path⟩ =
          Except.ok (r0, (⟨some r0, path⟩ : ClientState), false) := by
        simp [openRepo]
      rw [heq] at h
      obtain ⟨hr, hc', ho⟩ : r0 = r ∧ (⟨some r0, path⟩ : ClientState) = c' ∧
          false = opened := by simpa using h
      subst hr
      subst hc'
      subst ho
      refine ⟨by simp, ?_, by simp⟩
      intro r₁ hr₁ _
      simp only [Option.some.injEq] at hr₁
      subst hr₁
      exact ⟨rfl, rfl⟩
    · cases hres : plainOpen wd with
      | error e =>
        have heq : openRepo plainOpen wd ⟨some r0, path⟩ = Except.error e := by
          simp [openRepo, hp, hres]
        rw [heq] at h
        exact absurd h (by simp)
      | ok repo =>
        have heq : openRepo plainOpen wd ⟨some r0, path⟩ =
            Except.ok (repo, (⟨some repo, wd⟩ : ClientState), true) := by
          simp [openRepo, hp, hres]
        rw [heq] at h
        obtain ⟨hr, hc', ho⟩ : repo = r ∧ (⟨some repo, wd⟩ : ClientState) = c' ∧
            true = opened := by simpa using h
        subst hr
        subst hc'
        subst ho
        refine ⟨by simp [hp], ?_, fun _ => ⟨rfl, rfl⟩⟩
        intro r₁ _ hpath
        exact absurd hpath hp
  | none =>
    cases hres : plainOpen wd with
    | error e =>
      have heq : openRepo plainOpen wd ⟨none, path⟩ = Except.error e := by
        simp [openRepo, hres]
      rw [heq] at h
      exact absurd h (by simp)
    | ok repo =>
      have heq : openRepo plainOpen wd ⟨none, path⟩ =
          Except.ok (repo, (⟨some repo, wd⟩ : ClientState), true) := by
        simp [openRepo, hres]
      rw [heq] at h
      obtain ⟨hr, hc', ho⟩ : repo = r ∧ (⟨some repo, wd⟩ : ClientState) = c' ∧
          true = opened := by simpa using h
      subst hr
      subst hc'
      subst ho
      refine ⟨by simp, ?_, fun _ => ⟨rfl, rfl⟩⟩
      intro r₁ hr₁ _
      cases hr₁

/-- Witness for C8: a cache hit returns the cached handle without opening; a
directory change forces a fresh open that replaces the cache. -/
theorem openRepo_cache_law_witness :
    openRepo (fun _ => Except.ok ⟨7⟩) "/repo" ⟨some ⟨3⟩, "/repo"⟩ =
      Except.ok (⟨3⟩, ⟨some ⟨3⟩, "/repo"⟩, false) ∧
    openRepo (fun _ => Except.ok ⟨7⟩) "/other" ⟨some ⟨3⟩, "/repo"⟩ =
      Except.ok (⟨7⟩, ⟨some ⟨7⟩, "/other"⟩, true) ∧
    ((⟨3⟩ : RepoHandle) = ⟨3⟩ ∧
      (⟨some ⟨3⟩, "/repo"⟩ : ClientState) = ⟨some ⟨3⟩, "/repo"⟩) :=
  ⟨rfl, rfl,
    (openRepo_cache_law (fun _ => Except.ok ⟨7⟩) "/repo" ⟨some ⟨3⟩, "/repo"⟩
      ⟨3⟩ ⟨some ⟨3⟩, "/repo"⟩ false rfl).2.1 ⟨3⟩ rfl rfl⟩

/-- C9: for added (and deleted) paths the number of marker-prefixed body
chunks emitted equals the number of newline characters in the content plus
one, because the content is split on `'\n'`; for content ending in a newline
the body therefore ends with an extra bare `+` (resp. `-`) line for the
empty segment after the final newline. -/
theorem marker_line_counts (C : String) :
    ((plusLines C).length = C.data.count '\n' + 1 ∧
     (minusLines C).length = C.data.count '\n' + 1) ∧
    (∀ l : List Char, C.data = l ++ ['\n'] →
      (plusLines C).getLast? = some "+\n" ∧
      (minusLines C).getLast? = some "-\n") := by
  refine ⟨⟨?_, ?_⟩, ?_⟩
  · simp [plusLines, stringsSplitNl_length]
  · simp [minusLines, stringsSplitNl_length]
  · intro l hl
    have h := splitNlChars_trailing l
    rw [← hl] at h
    constructor
    · unfold plusLines stringsSplitNl
      rw [List.getLast?_map, List.getLast?_map, h]
      rfl
    · unfold minusLines stringsSplitNl
      rw [List.getLast?_map, List.getLast?_map, h]
      rfl

/-- Witness for C9: content `"a\n"` yields two body chunks (one newline plus
one) and ends with the bare marker line. -/
theorem marker_line_counts_witness :
    (plusLines "a\n").length = 2 ∧
    (plusLines "a\n").getLast? = some "+\n" ∧
    (minusLines "a\n").getLast? = some "-\n" :=
  ⟨by rw [(marker_line_counts "a\n").1.1]; decide,
   ((marker_line_counts "a\n").2 ['a'] (by decide)).1,
   ((marker_line_counts "a\n").2 ['a'] (by decide)).2⟩

end AICommit
